import Mathlib

set_option maxRecDepth 8000

/-!
Verification development for contigcounter.py (v1.5.1).

The script scans a BLAST text report line by line with three boolean state
flags (foundHeader, newQuery, getNextHit), extracts for each Query block the
first line of its "Sequences producing significant alignments:" section,
derives an aggregation key from the hit description, optionally diverts hits
matching an exclusion pattern, and tallies counts per key in two dicts.

Lines are modelled as lists of characters.  The content of a file is split into
lines exactly as Python file iteration does (each line keeps its trailing
newline), so a line never contains an interior newline; the classifier
functions below rely on that.
-/

/-! ## Python string primitives -/

/-- Python regex/str whitespace class: space, tab, newline, carriage return,
vertical tab, form feed. -/
def pyIsSpace (c : Char) : Bool :=
  c = ' ' || c = '\t' || c = '\n' || c = '\r' || c = '\x0b' || c = '\x0c'

/-- Python str.rstrip(): remove trailing whitespace. -/
def pyRstrip (l : List Char) : List Char :=
  (l.reverse.dropWhile pyIsSpace).reverse

/-- Python str.strip(): remove leading and trailing whitespace. -/
def pyStrip (l : List Char) : List Char :=
  pyRstrip (l.dropWhile pyIsSpace)

/-- Python str.rstrip(os.linesep) on Linux: remove trailing newline characters
only (used on the exclusion-file lines, line 178 of the source). -/
def pyRstripNl (l : List Char) : List Char :=
  (l.reverse.dropWhile (fun c => c = '\n')).reverse

/-- Helper for pySplitWs: accumulate the current token (reversed). -/
def pySplitWsAux : List Char → List Char → List (List Char)
  | [], acc => if acc.isEmpty then [] else [acc.reverse]
  | c :: rest, acc =>
    if pyIsSpace c then
      if acc.isEmpty then pySplitWsAux rest []
      else acc.reverse :: pySplitWsAux rest []
    else pySplitWsAux rest (c :: acc)

/-- Python str.split() with no argument: split on runs of whitespace,
discarding empty fields. -/
def pySplitWs (l : List Char) : List (List Char) :=
  pySplitWsAux l []

/-- Python str.split(',') : split on each comma, keeping empty fields;
"".split(',') is [""]. -/
def pySplitComma : List Char → List (List Char)
  | [] => [[]]
  | c :: rest =>
    match pySplitComma rest with
    | [] => [[]]
    | g :: gs => if c = ',' then [] :: g :: gs else (c :: g) :: gs

/-- Helper for pyLines: accumulate the current line (reversed). -/
def pyLinesAux : List Char → List Char → List (List Char)
  | [], acc => if acc.isEmpty then [] else [acc.reverse]
  | c :: rest, acc =>
    if c = '\n' then (acc.reverse ++ ['\n']) :: pyLinesAux rest []
    else pyLinesAux rest (c :: acc)

/-- Python file iteration: split the content after every newline; every line
but possibly the last ends with the newline. -/
def pyLines (content : List Char) : List (List Char) :=
  pyLinesAux content []

/-- Numeric value of a digit string. -/
def natVal (ds : List Char) : Nat :=
  ds.foldl (fun n c => 10 * n + (c.toNat - 48)) 0

/-- Python int(str): strip whitespace, optional sign, then one or more
digits and nothing else; None models the ValueError. -/
def pyInt (s : List Char) : Option Int :=
  match pyStrip s with
  | '+' :: ds => if !ds.isEmpty && ds.all Char.isDigit then some (natVal ds) else none
  | '-' :: ds => if !ds.isEmpty && ds.all Char.isDigit then some (-(natVal ds : Int)) else none
  | ds => if !ds.isEmpty && ds.all Char.isDigit then some (natVal ds) else none

/-- Python list indexing with a possibly negative index: a negative index
counts from the end; out of range is an IndexError (None). -/
def pyIndex (arr : List α) (i : Int) : Option α :=
  if 0 ≤ i then arr.get? i.toNat
  else
    let j : Int := arr.length + i
    if 0 ≤ j then arr.get? j.toNat else none

/-- Drop one leading plus or minus sign. -/
def dropSign : List Char → List Char
  | c :: rest => if c = '+' ∨ c = '-' then rest else c :: rest
  | [] => []

/-- Nonempty string of digits. -/
def digitsOnly (l : List Char) : Bool :=
  !l.isEmpty && l.all Char.isDigit

/-- Mantissa of a Python float literal: digits with at most one dot and at
least one digit overall. -/
def mantissaOk (l : List Char) : Bool :=
  let a := l.takeWhile Char.isDigit
  match l.drop a.length with
  | [] => !a.isEmpty
  | '.' :: b => b.all Char.isDigit && (!a.isEmpty || !b.isEmpty)
  | _ => false

/-- Python float(str) success: optional sign, then inf/infinity/nan
(case-insensitive) or mantissa with optional exponent part. -/
def pyFloatOk (s : List Char) : Bool :=
  let t := dropSign (pyStrip s)
  if t.map Char.toLower = "inf".toList ∨ t.map Char.toLower = "infinity".toList
      ∨ t.map Char.toLower = "nan".toList then true
  else
    let m := t.takeWhile (fun c => !(c = 'e' || c = 'E'))
    match t.drop m.length with
    | [] => mantissaOk m
    | _ :: ex => mantissaOk m && digitsOnly (dropSign ex)

/-- Python int(str) success. -/
def pyIntOk (s : List Char) : Bool :=
  (pyInt s).isSome

/-- numeric() of the source (lines 97-105): int(), falling back to float();
False means the uncaught ValueError that aborts the run. -/
def pyNumericOk (s : List Char) : Bool :=
  pyIntOk s || pyFloatOk s

/-! ## Line classifier (the regexes of the scan loop, lines 196-212) -/

/-- re.match of a whitespace-only line (line 196): every character is
whitespace. -/
def isBlank (l : List Char) : Bool :=
  l.all pyIsSpace

/-- re.match("^BLASTN" after optional whitespace, line 198). -/
def isHeaderLine (l : List Char) : Bool :=
  "BLASTN".toList.isPrefixOf (l.dropWhile pyIsSpace)

/-- re.match of the query marker (line 202): optional whitespace, the literal
text "Query= ", then at least one character of query name. -/
def queryName (l : List Char) : Option (List Char) :=
  let r := l.dropWhile pyIsSpace
  if "Query= ".toList.isPrefixOf r then
    let nm := r.drop 7
    if nm.isEmpty then none else some nm
  else none

/-- line.find("Sequences producing significant alignments:") == 0
(line 207): the literal must start at position 0 of the stripped line. -/
def isHitSectionMarker (l : List Char) : Bool :=
  "Sequences producing significant alignments:".toList.isPrefixOf l

/-- Model of the hit-line regex (line 212), resolved as the backtracking
engine resolves the greedy groups on an rstripped line: the e-value is the
final whitespace-free token, the score the token before it, and the
seqstring group everything before the score except one separating
whitespace character.  A two-token line matches only when at least two
whitespace characters precede the tokens (the greedy dot group then holds
whitespace only), giving an empty stripped seqstring.  The returned first
component differs from the raw regex group only in surrounding whitespace,
which the caller removes at once with strip(). -/
def hitMatch (l : List Char) : Option (List Char × List Char × List Char) :=
  let r := l.reverse
  let ev := r.takeWhile (fun c => !pyIsSpace c)
  let r1 := r.drop ev.length
  let w2 := r1.takeWhile pyIsSpace
  let r2 := r1.drop w2.length
  let sc := r2.takeWhile (fun c => !pyIsSpace c)
  let r3 := r2.drop sc.length
  let w1 := r3.takeWhile pyIsSpace
  let rest := r3.drop w1.length
  if ev.isEmpty || w2.isEmpty || sc.isEmpty then none
  else if rest.isEmpty then
    if 2 ≤ w1.length then some ([], sc.reverse, ev.reverse) else none
  else some (rest.reverse, sc.reverse, ev.reverse)

/-! ## Key extractor (get_aggregation_key, lines 72-95) -/

/-- Loop body of get_aggregation_key: for each configured field string,
int() it, index the token array with the 1-based index (Python semantics,
so index 0 reaches the last token), and append " " + token; None models the
exception that the caller wraps into GetBlastResultKeyError. -/
def buildKey : List (List Char) → List (List Char) → List Char → Option (List Char)
  | [], _, acc => some acc
  | kf :: rest, arr, acc =>
    match pyInt kf with
    | none => none
    | some i =>
      match pyIndex arr (i - 1) with
      | none => none
      | some tok => buildKey rest arr (acc ++ ' ' :: tok)

/-- get_aggregation_key: with no key-field configuration the description is
returned unchanged (line 88); otherwise the selected tokens are joined and
the result stripped (line 92).  None models GetBlastResultKeyError. -/
def get_aggregation_key (keyArray : Option (List (List Char))) (blast_desc : List Char) :
    Option (List Char) :=
  match keyArray with
  | none => some blast_desc
  | some ks =>
    match buildKey ks (pySplitWs blast_desc) [] with
    | some k => some (pyStrip k)
    | none => none

/-! ## Exclusion filter (lines 175-181 and 220-229)

The exclusion pattern is an alternation of literals passed through re.escape, searched
with re.search and re.IGNORECASE, so it matches at the leftmost position of
the description at which any term matches; among terms matching at that
position the first in file order wins, and group(0) is the matched
substring of the description itself. -/

/-- Case-insensitive (ASCII, as Python 2 re.IGNORECASE on str) test that the
first list is a prefix of the second up to case. -/
def ciStartsWith : List Char → List Char → Bool
  | [], _ => true
  | _ :: _, [] => false
  | a :: as, b :: bs => (a.toLower = b.toLower) && ciStartsWith as bs

/-- Term t matches the description at position i. -/
def matchTermAt (t desc : List Char) (i : Nat) : Bool :=
  ciStartsWith t (desc.drop i)

/-- Substring of desc of length n starting at i. -/
def sliceAt (desc : List Char) (i n : Nat) : List Char :=
  (desc.drop i).take n

/-- First alternative (in supplied order) matching at position i, returning
the matched text, i.e. group(0). -/
def firstMatchAt (terms : List (List Char)) (desc : List Char) (i : Nat) :
    Option (List Char) :=
  match terms with
  | [] => none
  | t :: ts =>
    if matchTermAt t desc i then some (sliceAt desc i t.length)
    else firstMatchAt ts desc i

/-- Scan match positions left to right, fuel many of them starting at i. -/
def searchFrom (terms : List (List Char)) (desc : List Char) : Nat → Nat → Option (List Char)
  | _, 0 => none
  | i, fuel + 1 =>
    match firstMatchAt terms desc i with
    | some m => some m
    | none => searchFrom terms desc (i + 1) fuel

/-- re.search of the escaped alternation with re.IGNORECASE: try every
position 0 .. desc.length. -/
def reSearch (terms : List (List Char)) (desc : List Char) : Option (List Char) :=
  searchFrom terms desc 0 (desc.length + 1)

/-! ## Aggregator (HitResultObject and the two dicts) -/

/-- HitResultObject (lines 29-55).  Scores and e-values are retained as
their raw tokens: no claim consumes their numeric values, while the success
of numeric() is modelled separately by pyNumericOk. -/
structure HitResultObject where
  Name : List Char
  hits : Nat
  scores : List (List Char)
  evalues : List (List Char)
deriving DecidableEq

/-- Constructor __init__: one hit, singleton score/evalue lists. -/
def HitResultObject.init (n s e : List Char) : HitResultObject :=
  ⟨n, 1, [s], [e]⟩

/-- addTally: increment the count, append score and e-value. -/
def HitResultObject.addTally (h : HitResultObject) (s e : List Char) : HitResultObject :=
  { h with hits := h.hits + 1, scores := h.scores ++ [s], evalues := h.evalues ++ [e] }

/-- The tally dicts, as insertion-ordered association lists (keys are never
duplicated: an existing key is updated in place). -/
abbrev Dict := List (List Char × HitResultObject)

/-- The dict update of lines 224-227 / 245-248: addTally on an existing key,
otherwise insert a fresh HitResultObject. -/
def dictTally (d : Dict) (k s e : List Char) : Dict :=
  match d with
  | [] => [(k, HitResultObject.init k s e)]
  | (k1, v) :: rest =>
    if k1 = k then (k1, v.addTally s e) :: rest
    else (k1, v) :: dictTally rest k s e

/-- Keys of a dict, in insertion order. -/
def dictKeys (d : Dict) : List (List Char) :=
  d.map (fun p => p.1)

/-- Sum of the hit counts of all entries. -/
def sumHits : Dict → Nat
  | [] => 0
  | p :: rest => p.2.hits + sumHits rest

/-! ## The scan state machine (lines 148-251) -/

/-- The uncaught ValueError raised by numeric() on an unparsable score or
e-value token, which aborts the whole run. -/
inductive PyErr
  | valueError
deriving DecidableEq

/-- The mutable scan state of the main loop.  The blocks field is
instrumentation not present in the source: it records, newest first, one
counter per recognized Query marker, holding how many hit records were
emitted inside that query block; it influences no other field. -/
structure ScanState where
  foundHeader : Bool
  newQuery : Bool
  getNextHit : Bool
  results : Dict
  lineCount : Nat
  warningCount : Nat
  excludedResults : Dict
  blocks : List Nat
deriving DecidableEq

/-- Initial state (lines 149-157). -/
def initState : ScanState :=
  ⟨false, false, false, [], 0, 0, [], []⟩

/-- lineCount += 1 (line 193), done before anything else in the loop. -/
def bumpLine (st : ScanState) : ScanState :=
  { st with lineCount := st.lineCount + 1 }

/-- Increment the counter of the current (most recent) query block. -/
def bumpHead : List Nat → List Nat
  | [] => []
  | b :: bs => (b + 1) :: bs

/-- Lines 215-248 once a hit line matched: clear both flags, then either
divert the hit to excludedResults under group(0) of the exclusion match, or
tally it in results under the derived key, falling back to the full
description plus a warning when key derivation fails. -/
def tallyHit (ka : Option (List (List Char))) (excl : List (List Char))
    (st : ScanState) (seqString scoreTok evTok : List Char) : ScanState :=
  match (if excl.isEmpty then none else reSearch excl seqString) with
  | some m =>
    { st with newQuery := false, getNextHit := false, blocks := bumpHead st.blocks,
              excludedResults := dictTally st.excludedResults m scoreTok evTok }
  | none =>
    match get_aggregation_key ka seqString with
    | some key =>
      { st with newQuery := false, getNextHit := false, blocks := bumpHead st.blocks,
                results := dictTally st.results key scoreTok evTok }
    | none =>
      { st with newQuery := false, getNextHit := false, blocks := bumpHead st.blocks,
                results := dictTally st.results seqString scoreTok evTok,
                warningCount := st.warningCount + 1 }

/-- One iteration of the scan loop (lines 192-248).  The branch structure
mirrors the elif chain; a recognized hit line whose score or e-value token
fails numeric() aborts the run with the uncaught ValueError. -/
def processLine (ka : Option (List (List Char))) (excl : List (List Char))
    (st0 : ScanState) (rawLine : List Char) : Except PyErr ScanState :=
  if isBlank (pyRstrip rawLine) then .ok (bumpLine st0)
  else if !st0.foundHeader && isHeaderLine (pyRstrip rawLine) then
    .ok { bumpLine st0 with foundHeader := true }
  else if st0.foundHeader && !st0.newQuery then
    if (queryName (pyRstrip rawLine)).isSome then
      .ok { bumpLine st0 with newQuery := true, blocks := 0 :: st0.blocks }
    else .ok (bumpLine st0)
  else if st0.foundHeader && st0.newQuery && !st0.getNextHit then
    if isHitSectionMarker (pyRstrip rawLine) then .ok { bumpLine st0 with getNextHit := true }
    else .ok (bumpLine st0)
  else if st0.foundHeader && st0.newQuery && st0.getNextHit then
    match hitMatch (pyRstrip rawLine) with
    | some (d, s, e) =>
      if pyNumericOk (pyStrip s) then
        if pyNumericOk (pyStrip e) then
          .ok (tallyHit ka excl (bumpLine st0) (pyStrip d) (pyStrip s) (pyStrip e))
        else .error .valueError
      else .error .valueError
    | none => .ok (bumpLine st0)
  else .ok (bumpLine st0)

/-- The whole scan loop over the lines of the input file. -/
def runScan (ka : Option (List (List Char))) (excl : List (List Char)) :
    ScanState → List (List Char) → Except PyErr ScanState
  | st, [] => .ok st
  | st, l :: ls =>
    match processLine ka excl st l with
    | .ok st1 => runScan ka excl st1 ls
    | .error e => .error e

/-- Sum of a list of naturals. -/
def natSum : List Nat → Nat
  | [] => 0
  | n :: ns => n + natSum ns

/-- Number of positive entries. -/
def countPos : List Nat → Nat
  | [] => 0
  | n :: ns => (if 0 < n then 1 else 0) + countPos ns

/-- Number of query blocks that produced at least one recognized top-hit
line. -/
def countHitBlocks (st : ScanState) : Nat :=
  countPos st.blocks

/-! ## The main program (lines 109-293)

The observable effects of main are modelled as an ordered trace of events
plus the process exit status.  An uncaught Python exception (ValueError from
numeric(), ZeroDivisionError from the average over zero keys) terminates the
interpreter with status 1; sys.exit(1) also gives 1; falling off the end of
the script gives 0. -/

/-- Observable milestones of main, in program order. -/
inductive Ev
  | openBlast
  | kfError
  | openExclude
  | valueErrorCrash
  | notBlastWarning
  | finalReport
  | zeroDivCrash
  | exclusionReport
deriving DecidableEq

/-- Outcome of a run: the event trace, the exit status, and (when the scan
loop completed) the final scan state, exposed for stating aggregation
facts. -/
structure MainOutcome where
  trace : List Ev
  exitCode : Nat
  scan : Option ScanState
deriving DecidableEq

/-- Parsed command line (argparse, lines 112-122). -/
structure Argv where
  blast_file : List Char
  debug : Bool
  key_fields : Option (List Char)
  exclude : Option (List Char)

/-- Environment: whether each file opens, and its content. -/
structure Fs where
  blastOk : Bool
  blastContent : List Char
  excludeOk : Bool
  excludeContent : List Char

/-- Python truthiness of args.key_fields (line 141): present and nonempty. -/
def kfTruthy : Option (List Char) → Bool
  | some s => !s.isEmpty
  | none => false

/-- The stored key-fields string (empty when absent). -/
def kfStr : Option (List Char) → List Char
  | some s => s
  | none => []

/-- re.match("\d+(,\d+)*", s) at line 141.  re.match anchors only at the
start and the starred group may match the empty string, so the match
succeeds exactly when the string begins with a digit; in particular a
trailing garbage suffix such as in "1,2x" is accepted. -/
def kfRegexMatch (s : List Char) : Bool :=
  match s with
  | c :: _ => c.isDigit
  | [] => false

/-- Modelled from the spec (section 6): the full-string reading of the
key-fields format, "one or more digits, optionally repeated as ,digits" —
every comma-separated group is a nonempty digit string.  Stated only to
compare the validation of the spec with the unanchored re.match of the source. -/
def fullKeyFieldsFormat (s : List Char) : Bool :=
  (pySplitComma s).all digitsOnly

/-- The exclusion terms loaded from the exclusion file (lines 177-178): one
per line, stripped of the trailing newline; an empty file yields no terms
and leaves the filter inactive (the built pattern string is empty and
falsy). -/
def exclTermsOf (content : List Char) : List (List Char) :=
  (pyLines content).map pyRstripNl

/-- keyArray as memoized by get_aggregation_key (lines 77-83):
args.key_fields split on commas, or None. -/
def keyArrayOf (a : Argv) : Option (List (List Char)) :=
  a.key_fields.map pySplitComma

/-- The scan of the BLAST file followed by the report phase (lines 186-293).
When the header was found, the final report table is printed, then
avgHits = totalHits / len(results) (line 268) raises ZeroDivisionError
whenever the results dict is empty; otherwise the statistics succeed (the
standard-deviation division uses len(results) when there is one key and
len(results)-1 otherwise, both positive) and the exclusion report is
printed when any hits were excluded. -/
def scanPhase (a : Argv) (fs : Fs) (t : List Ev) (excl : List (List Char)) : MainOutcome :=
  match runScan (keyArrayOf a) excl initState (pyLines fs.blastContent) with
  | .error _ => ⟨t ++ [.valueErrorCrash], 1, none⟩
  | .ok st =>
    if st.foundHeader then
      if st.results.isEmpty then ⟨t ++ [.finalReport, .zeroDivCrash], 1, some st⟩
      else if st.excludedResults.isEmpty then ⟨t ++ [.finalReport], 0, some st⟩
      else ⟨t ++ [.finalReport, .exclusionReport], 0, some st⟩
    else ⟨t ++ [.notBlastWarning], 1, some st⟩

/-- main: open the BLAST file (line 130), then validate --key-fields
(line 141), then open and compile the exclusion file if configured
(lines 160-181), then scan and report. -/
def mainRun (a : Argv) (fs : Fs) : MainOutcome :=
  if fs.blastOk then
    if kfTruthy a.key_fields && !kfRegexMatch (kfStr a.key_fields) then
      ⟨[.openBlast, .kfError], 1, none⟩
    else
      match a.exclude with
      | some _ =>
        if fs.excludeOk then
          scanPhase a fs [.openBlast, .openExclude] (exclTermsOf fs.excludeContent)
        else ⟨[.openBlast, .openExclude], 1, none⟩
      | none => scanPhase a fs [.openBlast] []
  else ⟨[.openBlast], 1, none⟩

/-- Project the final state out of a completed scan. -/
def okState : Except PyErr ScanState → Option ScanState
  | .ok st => some st
  | .error _ => none

/-- The invariant tied to the block instrumentation: the two tallies hold as
many hits as were emitted in total; no query block emitted more than one
hit; and while newQuery is set the current block has not emitted yet. -/
def ScanInv (st : ScanState) : Prop :=
  sumHits st.results + sumHits st.excludedResults = natSum st.blocks
  ∧ (∀ b ∈ st.blocks, b ≤ 1)
  ∧ (st.newQuery = true → ∃ tl, st.blocks = 0 :: tl)

/-! ## Concrete runs used as witnesses and counterexamples -/

/-- A run with no key fields and no exclusion file. -/
def aPlain : Argv := ⟨"f".toList, false, none, none⟩

/-- A BLAST file holding only the header line. -/
def fsHeaderOnly : Fs := ⟨true, "BLASTN 2.2.26+\n".toList, true, []⟩

/-- A readable input that contains no header line anywhere. -/
def fsNoHeader : Fs := ⟨true, "hello\nworld".toList, true, []⟩

/-- key-fields "1,2x": not of the documented full format, yet accepted by
the unanchored re.match. -/
def aKf12x : Argv := ⟨"f".toList, false, some "1,2x".toList, none⟩

/-- key-fields "x": rejected by the validation (no leading digit). -/
def aKfX : Argv := ⟨"f".toList, false, some "x".toList, none⟩

/-- A well-formed single-query report whose hit description has two
tokens. -/
def fsOneHit : Fs :=
  ⟨true,
   ("BLASTN 2.2.26+\nQuery= seq1\nSequences producing significant alignments:\n"
     ++ "alpha beta 10 2e-5\n").toList,
   true, []⟩

/-- A run with the exclusion file configured. -/
def aExcl : Argv := ⟨"f".toList, false, none, some "ex".toList⟩

/-- A report whose single hit description contains the word Mitochondrial,
and an exclusion file holding the lowercase term. -/
def fsMito : Fs :=
  ⟨true,
   ("BLASTN 2.2.26+\nQuery= q1\nSequences producing significant alignments:\n"
     ++ "Mitochondrial DNA polymerase 50 1e-10\n").toList,
   true, "mitochondrial\n".toList⟩

/-- A report whose single hit description starts with abc, and an exclusion
file whose second line is blank (a trailing blank line). -/
def fsAbcBlank : Fs :=
  ⟨true,
   ("BLASTN 2.2.26+\nQuery= q1\nSequences producing significant alignments:\n"
     ++ "abcdef gh 5 1e-3\n").toList,
   true, "abc\n\n".toList⟩

/-- A two-query report: one hit tallied normally, one diverted by the
mitochondrial exclusion term. -/
def contentTwoQ : List Char :=
  ("BLASTN 2.2.26+\nQuery= seq1\nSequences producing significant alignments:\n"
    ++ "gi|1 prot A 123 1e-45\nQuery= seq2\n"
    ++ "Sequences producing significant alignments:\n"
    ++ "Mitochondrial DNA polymerase 50 1e-10\n").toList

/-- Exclusion terms of the two-query run. -/
def exMito : List (List Char) := ["mitochondrial".toList]

/-- Final state of the two-query run. -/
def stTwoQ : ScanState :=
  match runScan none exMito initState (pyLines contentTwoQ) with
  | .ok st => st
  | .error _ => initState

/-- A state in the middle of a hit section, as the machine reaches after a
header, a query marker and the alignments marker. -/
def stHitReady : ScanState :=
  { initState with foundHeader := true, newQuery := true, getNextHit := true, blocks := [0] }

/-- A three-token hit line. -/
def lineHit3 : List Char := "alpha beta 3 1e-2".toList

/-- Result of one step from stHitReady over lineHit3 under the
mitochondrial exclusion term. -/
def stHitDone : ScanState :=
  match processLine none exMito stHitReady lineHit3 with
  | .ok st => st
  | .error _ => initState

/-- A hit line whose description has three tokens (for key field 9). -/
def lineHit4 : List Char := "alpha beta gamma 7 1e-4".toList

/-- The mitochondrial hit line. -/
def lineMito : List Char := "Mitochondrial DNA polymerase 50 1e-10".toList

/-- Exclusion terms containing an empty term. -/
def exEmptyTerm : List (List Char) := [[]]

/-- Final state of the two-query run filtered by the empty term. -/
def stTwoQEmpty : ScanState :=
  match runScan none exEmptyTerm initState (pyLines contentTwoQ) with
  | .ok st => st
  | .error _ => initState

/-! ## Basic lemmas about the state operations -/

@[simp] theorem bumpLine_foundHeader (st : ScanState) :
    (bumpLine st).foundHeader = st.foundHeader := rfl

@[simp] theorem bumpLine_newQuery (st : ScanState) :
    (bumpLine st).newQuery = st.newQuery := rfl

@[simp] theorem bumpLine_getNextHit (st : ScanState) :
    (bumpLine st).getNextHit = st.getNextHit := rfl

@[simp] theorem bumpLine_results (st : ScanState) :
    (bumpLine st).results = st.results := rfl

@[simp] theorem bumpLine_excludedResults (st : ScanState) :
    (bumpLine st).excludedResults = st.excludedResults := rfl

@[simp] theorem bumpLine_warningCount (st : ScanState) :
    (bumpLine st).warningCount = st.warningCount := rfl

@[simp] theorem bumpLine_blocks (st : ScanState) :
    (bumpLine st).blocks = st.blocks := rfl

@[simp] theorem bumpLine_lineCount (st : ScanState) :
    (bumpLine st).lineCount = st.lineCount + 1 := rfl

theorem sumHits_dictTally (d : Dict) (k s e : List Char) :
    sumHits (dictTally d k s e) = sumHits d + 1 := by
  induction d with
  | nil => rfl
  | cons p rest ih =>
    obtain ⟨k1, v⟩ := p
    unfold dictTally
    by_cases h : k1 = k
    · simp only [h, if_pos rfl, sumHits, HitResultObject.addTally]
      omega
    · simp only [if_neg h, sumHits, ih]
      omega

theorem natSum_eq_countPos (l : List Nat) (h : ∀ b ∈ l, b ≤ 1) :
    natSum l = countPos l := by
  induction l with
  | nil => rfl
  | cons n ns ih =>
    have hn : n ≤ 1 := h n (List.mem_cons_self _ _)
    have ih2 := ih (fun b hb => h b (List.mem_cons_of_mem _ hb))
    unfold natSum countPos
    rcases Nat.le_one_iff_eq_zero_or_eq_one.mp hn with rfl | rfl <;> simp [ih2]

theorem tallyHit_newQuery (ka : Option (List (List Char))) (excl : List (List Char))
    (st : ScanState) (q s e : List Char) :
    (tallyHit ka excl st q s e).newQuery = false := by
  unfold tallyHit
  split
  · rfl
  · split <;> rfl

theorem tallyHit_getNextHit (ka : Option (List (List Char))) (excl : List (List Char))
    (st : ScanState) (q s e : List Char) :
    (tallyHit ka excl st q s e).getNextHit = false := by
  unfold tallyHit
  split
  · rfl
  · split <;> rfl

theorem tallyHit_blocks (ka : Option (List (List Char))) (excl : List (List Char))
    (st : ScanState) (q s e : List Char) :
    (tallyHit ka excl st q s e).blocks = bumpHead st.blocks := by
  unfold tallyHit
  split
  · rfl
  · split <;> rfl

theorem tallyHit_sums (ka : Option (List (List Char))) (excl : List (List Char))
    (st : ScanState) (q s e : List Char) :
    sumHits (tallyHit ka excl st q s e).results
      + sumHits (tallyHit ka excl st q s e).excludedResults
      = sumHits st.results + sumHits st.excludedResults + 1 := by
  unfold tallyHit
  split
  · simp only [sumHits_dictTally]
    omega
  · split <;> simp only [sumHits_dictTally] <;> omega

/-! ## The scan without a header line (claim C2 machinery) -/

theorem processLine_no_header (ka : Option (List (List Char))) (excl : List (List Char))
    (st : ScanState) (l : List Char) (hF : st.foundHeader = false)
    (hH : isHeaderLine (pyRstrip l) = false) :
    processLine ka excl st l = .ok (bumpLine st) := by
  simp [processLine, hF, hH]

theorem runScan_no_header (ka : Option (List (List Char))) (excl : List (List Char)) :
    ∀ (lines : List (List Char)) (st : ScanState), st.foundHeader = false →
    (∀ l ∈ lines, isHeaderLine (pyRstrip l) = false) →
    ∃ st1, runScan ka excl st lines = .ok st1 ∧ st1.results = st.results
      ∧ st1.excludedResults = st.excludedResults ∧ st1.foundHeader = false
      ∧ st1.lineCount = st.lineCount + lines.length := by
  intro lines
  induction lines with
  | nil =>
    intro st hF _
    exact ⟨st, rfl, rfl, rfl, hF, rfl⟩
  | cons l ls ih =>
    intro st hF h
    have h1 : processLine ka excl st l = .ok (bumpLine st) :=
      processLine_no_header ka excl st l hF (h l (List.mem_cons_self _ _))
    obtain ⟨st1, hrun, hres, hexc, hfh, hlc⟩ :=
      ih (bumpLine st) (by simp [hF]) (fun x hx => h x (List.mem_cons_of_mem _ hx))
    refine ⟨st1, ?_, by simpa using hres, by simpa using hexc, hfh, ?_⟩
    · simp only [runScan, h1]
      exact hrun
    · simp only [bumpLine_lineCount] at hlc
      simp [hlc, List.length_cons]
      omega

/-! ## Invariant preservation -/

theorem tallyHit_inv (ka : Option (List (List Char))) (excl : List (List Char))
    (st : ScanState) (q s e : List Char) (hq : st.newQuery = true) (hI : ScanInv st) :
    ScanInv (tallyHit ka excl st q s e) := by
  obtain ⟨hsum, hle, hnq⟩ := hI
  obtain ⟨tl, htl⟩ := hnq hq
  refine ⟨?_, ?_, ?_⟩
  · rw [tallyHit_sums, tallyHit_blocks, htl]
    rw [htl] at hsum
    simp only [natSum, bumpHead] at *
    omega
  · intro b hb
    rw [tallyHit_blocks, htl] at hb
    simp only [bumpHead] at hb
    rcases List.mem_cons.mp hb with rfl | hb2
    · omega
    · exact hle b (htl ▸ List.mem_cons_of_mem _ hb2)
  · intro hfalse
    rw [tallyHit_newQuery] at hfalse
    cases hfalse

theorem ScanInv_bumpLine (st : ScanState) : ScanInv (bumpLine st) ↔ ScanInv st := by
  simp [ScanInv]

theorem processLine_inv (ka : Option (List (List Char))) (excl : List (List Char))
    (st st1 : ScanState) (l : List Char)
    (h : processLine ka excl st l = .ok st1) (hI : ScanInv st) : ScanInv st1 := by
  unfold processLine at h
  split_ifs at h with hb hh hq hqm hs hsm hhit
  · injection h with h2; subst h2
    exact (ScanInv_bumpLine st).mpr hI
  · injection h with h2; subst h2
    obtain ⟨h1, h2, h3⟩ := hI
    exact ⟨h1, h2, h3⟩
  · injection h with h2; subst h2
    obtain ⟨h1, h2, h3⟩ := hI
    refine ⟨by simpa [natSum] using h1, ?_, ?_⟩
    · intro b hb
      rcases List.mem_cons.mp hb with rfl | hb2
      · omega
      · exact h2 b hb2
    · intro _
      exact ⟨st.blocks, rfl⟩
  · injection h with h2; subst h2
    exact (ScanInv_bumpLine st).mpr hI
  · injection h with h2; subst h2
    obtain ⟨h1, h2, h3⟩ := hI
    exact ⟨h1, h2, h3⟩
  · injection h with h2; subst h2
    exact (ScanInv_bumpLine st).mpr hI
  · -- the hit branch: a match on hitMatch, then the numeric checks
    have hnq : st.newQuery = true := by
      simp only [Bool.and_eq_true] at hhit
      exact hhit.1.2
    split at h
    · split_ifs at h with hns hne
      injection h with h2; subst h2
      exact tallyHit_inv ka excl (bumpLine st) _ _ _ (by simpa using hnq)
        ((ScanInv_bumpLine st).mpr hI)
    · injection h with h2; subst h2
      exact (ScanInv_bumpLine st).mpr hI
  · injection h with h2; subst h2
    exact (ScanInv_bumpLine st).mpr hI

theorem runScan_preserves (ka : Option (List (List Char))) (excl : List (List Char))
    (P : ScanState → Prop)
    (hP : ∀ st l st1, processLine ka excl st l = .ok st1 → P st → P st1) :
    ∀ (lines : List (List Char)) (st st1 : ScanState),
      runScan ka excl st lines = .ok st1 → P st → P st1 := by
  intro lines
  induction lines with
  | nil =>
    intro st st1 h hp
    injection h with h2
    exact h2 ▸ hp
  | cons l ls ih =>
    intro st st1 h hp
    unfold runScan at h
    cases hpl : processLine ka excl st l with
    | ok st2 =>
      rw [hpl] at h
      exact ih st2 st1 h (hP st l st2 hpl hp)
    | error e =>
      rw [hpl] at h
      cases h

/-! ## Characterization of the exclusion search -/

theorem ciStartsWith_length (t : List Char) : ∀ r, ciStartsWith t r = true → t.length ≤ r.length := by
  induction t with
  | nil => intro r _; simp
  | cons a as ih =>
    intro r h
    cases r with
    | nil => cases h
    | cons b bs =>
      simp only [ciStartsWith, Bool.and_eq_true] at h
      simpa using ih bs h.2

theorem ciStartsWith_lower (t : List Char) : ∀ r, ciStartsWith t r = true →
    (r.take t.length).map Char.toLower = t.map Char.toLower := by
  induction t with
  | nil => intro r _; simp
  | cons a as ih =>
    intro r h
    cases r with
    | nil => cases h
    | cons b bs =>
      simp only [ciStartsWith, Bool.and_eq_true, decide_eq_true_eq] at h
      simp [List.take_succ_cons, ih bs h.2, h.1]

theorem firstMatchAt_none_iff (desc : List Char) (i : Nat) :
    ∀ ts : List (List Char),
      firstMatchAt ts desc i = none ↔ ∀ t ∈ ts, matchTermAt t desc i = false := by
  intro ts
  induction ts with
  | nil => simp [firstMatchAt]
  | cons t rest ih =>
    unfold firstMatchAt
    by_cases h : matchTermAt t desc i = true
    · simp [h]
    · simp only [Bool.not_eq_true] at h
      simp [h, ih]

theorem firstMatchAt_some (desc : List Char) (i : Nat) (m : List Char) :
    ∀ ts : List (List Char), firstMatchAt ts desc i = some m →
      ∃ pre t post, ts = pre ++ t :: post ∧ matchTermAt t desc i = true
        ∧ m = sliceAt desc i t.length
        ∧ ∀ u ∈ pre, matchTermAt u desc i = false := by
  intro ts
  induction ts with
  | nil => intro h; cases h
  | cons t rest ih =>
    intro h
    unfold firstMatchAt at h
    by_cases hm : matchTermAt t desc i = true
    · rw [if_pos hm] at h
      injection h with h2
      exact ⟨[], t, rest, rfl, hm, h2.symm, by simp⟩
    · rw [if_neg hm] at h
      obtain ⟨pre, u, post, hsplit, hu, hm2, hpre⟩ := ih h
      refine ⟨t :: pre, u, post, by simp [hsplit], hu, hm2, ?_⟩
      intro v hv
      rcases List.mem_cons.mp hv with rfl | hv2
      · simpa using hm
      · exact hpre v hv2

theorem searchFrom_some (terms : List (List Char)) (desc : List Char) :
    ∀ (fuel i : Nat) (m : List Char), searchFrom terms desc i fuel = some m →
      ∃ j, i ≤ j ∧ j < i + fuel ∧ firstMatchAt terms desc j = some m
        ∧ ∀ k, i ≤ k → k < j → firstMatchAt terms desc k = none := by
  intro fuel
  induction fuel with
  | zero => intro i m h; cases h
  | succ n ih =>
    intro i m h
    unfold searchFrom at h
    cases hf : firstMatchAt terms desc i with
    | some m0 =>
      rw [hf] at h
      injection h with h2
      exact ⟨i, le_refl i, by omega, h2 ▸ hf, fun k hk1 hk2 => absurd (lt_of_le_of_lt hk1 hk2) (lt_irrefl i)⟩
    | none =>
      rw [hf] at h
      obtain ⟨j, hj1, hj2, hj3, hj4⟩ := ih (i + 1) m h
      refine ⟨j, by omega, by omega, hj3, ?_⟩
      intro k hk1 hk2
      rcases Nat.lt_or_ge k (i + 1) with hk | hk
      · have : k = i := by omega
        exact this ▸ hf
      · exact hj4 k hk hk2

theorem reSearch_isSome_of_empty_term (terms : List (List Char)) (desc : List Char)
    (h : [] ∈ terms) : (reSearch terms desc).isSome = true := by
  unfold reSearch searchFrom
  cases hf : firstMatchAt terms desc 0 with
  | some m => simp
  | none =>
    have := (firstMatchAt_none_iff desc 0 terms).mp hf [] h
    simp [matchTermAt, ciStartsWith] at this

/-! ## The emission branch of the scan loop -/

theorem hitMatch_of_blank (l : List Char) (h : isBlank l = true) : hitMatch l = none := by
  have hev : l.reverse.takeWhile (fun c => !pyIsSpace c) = [] := by
    cases hr : l.reverse with
    | nil => rfl
    | cons a as =>
      have ha : pyIsSpace a = true := by
        have hall : ∀ x ∈ l, pyIsSpace x = true := List.all_eq_true.mp h
        have : a ∈ l := by
          have : a ∈ l.reverse := hr ▸ List.mem_cons_self _ _
          simpa using this
        exact hall a this
      simp [List.takeWhile_cons, ha]
  simp [hitMatch, hev]

theorem hitMatch_not_blank (l : List Char) (x : List Char × List Char × List Char)
    (h : hitMatch l = some x) : isBlank l = false := by
  cases hb : isBlank l
  · rfl
  · rw [hitMatch_of_blank l hb] at h
    cases h

theorem processLine_emit (ka : Option (List (List Char))) (excl : List (List Char))
    (st : ScanState) (l d s e : List Char)
    (hF : st.foundHeader = true) (hQ : st.newQuery = true) (hG : st.getNextHit = true)
    (hm : hitMatch (pyRstrip l) = some (d, s, e))
    (hns : pyNumericOk (pyStrip s) = true) (hne : pyNumericOk (pyStrip e) = true) :
    processLine ka excl st l
      = .ok (tallyHit ka excl (bumpLine st) (pyStrip d) (pyStrip s) (pyStrip e)) := by
  have hnb : isBlank (pyRstrip l) = false := hitMatch_not_blank _ _ hm
  simp [processLine, hnb, hF, hQ, hG, hm, hns, hne]

theorem tallyHit_excluded (ka : Option (List (List Char))) (excl : List (List Char))
    (st : ScanState) (q s e m : List Char)
    (hm : (if excl.isEmpty then none else reSearch excl q) = some m) :
    tallyHit ka excl st q s e
      = { st with newQuery := false, getNextHit := false, blocks := bumpHead st.blocks,
                  excludedResults := dictTally st.excludedResults m s e } := by
  unfold tallyHit
  rw [hm]

theorem tallyHit_warn (ka : Option (List (List Char))) (excl : List (List Char))
    (st : ScanState) (q s e : List Char)
    (hn : (if excl.isEmpty then none else reSearch excl q) = none)
    (hk : get_aggregation_key ka q = none) :
    tallyHit ka excl st q s e
      = { st with newQuery := false, getNextHit := false, blocks := bumpHead st.blocks,
                  results := dictTally st.results q s e,
                  warningCount := st.warningCount + 1 } := by
  unfold tallyHit
  rw [hn, hk]

/-! ## An empty exclusion term diverts every hit -/

theorem processLine_keeps_results_empty (ka : Option (List (List Char)))
    (excl : List (List Char)) (st st1 : ScanState) (l : List Char)
    (hterm : [] ∈ excl) (h : processLine ka excl st l = .ok st1)
    (hres : st.results = []) : st1.results = [] := by
  have hne : excl.isEmpty = false := by
    cases excl with
    | nil => cases hterm
    | cons t ts => rfl
  unfold processLine at h
  split_ifs at h with hb hh hq hqm hs hsm hhit
  · injection h with h2; subst h2; simpa using hres
  · injection h with h2; subst h2; simpa using hres
  · injection h with h2; subst h2; simpa using hres
  · injection h with h2; subst h2; simpa using hres
  · injection h with h2; subst h2; simpa using hres
  · injection h with h2; subst h2; simpa using hres
  · split at h
    · rename_i d s e heq
      split_ifs at h with hns hne2
      injection h with h2; subst h2
      obtain ⟨m, hm⟩ := Option.isSome_iff_exists.mp
        (reSearch_isSome_of_empty_term excl (pyStrip d) hterm)
      have hif : (if excl.isEmpty then none else reSearch excl (pyStrip d)) = some m := by
        simp [hne, hm]
      rw [tallyHit_excluded ka excl (bumpLine st) (pyStrip d) (pyStrip s) (pyStrip e) m hif]
      simpa using hres
    · injection h with h2; subst h2; simpa using hres
  · injection h with h2; subst h2; simpa using hres

/-! ## Supporting reductions for the main-program claims -/

theorem scanPhase_no_header (a : Argv) (fs : Fs) (t : List Ev) (excl : List (List Char))
    (hnh : ∀ l ∈ pyLines fs.blastContent, isHeaderLine (pyRstrip l) = false) :
    ∃ st, scanPhase a fs t excl = ⟨t ++ [Ev.notBlastWarning], 1, some st⟩
      ∧ st.results = [] ∧ st.excludedResults = []
      ∧ st.lineCount = (pyLines fs.blastContent).length := by
  obtain ⟨st1, hrun, hres, hexc, hfh, hlc⟩ :=
    runScan_no_header (keyArrayOf a) excl (pyLines fs.blastContent) initState rfl hnh
  refine ⟨st1, ?_, by simpa [initState] using hres, by simpa [initState] using hexc,
    by simpa [initState] using hlc⟩
  unfold scanPhase
  rw [hrun]
  simp [hfh]

/-! ## Claim theorems -/

/-- C1: the claim reads "for every input file in which the report header was
found but zero hit records were recognized, the program completes
successfully and exits with status zero".  The code instead divides
totalHits by len(results) = 0 (line 268) after printing the report table:
on a file holding only the BLASTN header line the run ends in a
ZeroDivisionError and a nonzero exit status. -/
theorem c1_zero_hits_zero_division :
    (mainRun aPlain fsHeaderOnly).exitCode = 1
    ∧ (mainRun aPlain fsHeaderOnly).trace = [Ev.openBlast, Ev.finalReport, Ev.zeroDivCrash]
    ∧ (mainRun aPlain fsHeaderOnly).scan.map (fun st => st.foundHeader) = some true
    ∧ (mainRun aPlain fsHeaderOnly).scan.map (fun st => st.results.isEmpty) = some true := by
  decide

/-- C2: an input stream with no line of optional whitespace followed by
BLASTN is consumed in full (lineCount reaches the number of lines), the
run reports that the file is not a BLAST result file, prints no tally
report, aggregates nothing, and exits with a nonzero status. -/
theorem c2_no_header_nonzero_exit (a : Argv) (fs : Fs)
    (hOpen : fs.blastOk = true)
    (hkf : (kfTruthy a.key_fields && !kfRegexMatch (kfStr a.key_fields)) = false)
    (hex : ∀ p, a.exclude = some p → fs.excludeOk = true)
    (hnh : ∀ l ∈ pyLines fs.blastContent, isHeaderLine (pyRstrip l) = false) :
    (mainRun a fs).exitCode = 1
    ∧ Ev.notBlastWarning ∈ (mainRun a fs).trace
    ∧ Ev.finalReport ∉ (mainRun a fs).trace
    ∧ ∃ st, (mainRun a fs).scan = some st ∧ st.results = [] ∧ st.excludedResults = []
        ∧ st.lineCount = (pyLines fs.blastContent).length := by
  unfold mainRun
  cases hexcl : a.exclude with
  | none =>
    simp only [hOpen, hkf, hexcl, Bool.false_eq_true, if_false, if_true]
    obtain ⟨st, hsp, h1, h2, h3⟩ := scanPhase_no_header a fs [Ev.openBlast] [] hnh
    rw [hsp]
    exact ⟨rfl, by simp, by simp, st, rfl, h1, h2, h3⟩
  | some p =>
    have hok := hex p hexcl
    simp only [hOpen, hkf, hexcl, hok, Bool.false_eq_true, if_false, if_true]
    obtain ⟨st, hsp, h1, h2, h3⟩ :=
      scanPhase_no_header a fs [Ev.openBlast, Ev.openExclude] (exclTermsOf fs.excludeContent) hnh
    rw [hsp]
    exact ⟨rfl, by simp, by simp, st, rfl, h1, h2, h3⟩

/-- Witness for C2 at a concrete readable two-line file with no header. -/
theorem c2_witness :
    (mainRun aPlain fsNoHeader).exitCode = 1
    ∧ Ev.notBlastWarning ∈ (mainRun aPlain fsNoHeader).trace
    ∧ Ev.finalReport ∉ (mainRun aPlain fsNoHeader).trace
    ∧ ∃ st, (mainRun aPlain fsNoHeader).scan = some st ∧ st.results = []
        ∧ st.excludedResults = []
        ∧ st.lineCount = (pyLines fsNoHeader.blastContent).length :=
  c2_no_header_nonzero_exit aPlain fsNoHeader rfl (by decide)
    (fun p h => by simp [aPlain] at h) (by decide)

/-- Counterexample to C3: the example given in the claim, "1,2x" is not of the
documented full key-fields format, yet the unanchored re.match accepts it
(the pattern matches the prefix "1,2"), so no fatal configuration error is
reported: the run completes with exit status zero, and its first observable
step is opening the BLAST input file. -/
theorem c3_counterexample :
    fullKeyFieldsFormat "1,2x".toList = false
    ∧ kfRegexMatch "1,2x".toList = true
    ∧ (mainRun aKf12x fsOneHit).exitCode = 0
    ∧ Ev.kfError ∉ (mainRun aKf12x fsOneHit).trace
    ∧ (mainRun aKf12x fsOneHit).trace.head? = some Ev.openBlast := by
  decide

/-- C3 (amended): the validation rejects --key-fields exactly when the
supplied string is nonempty and re.match("digits(,digits)*") fails at its
start, i.e. when it does not begin with a digit; the fatal error then
occurs after the BLAST input file has been opened (the trace starts with
the open event) and before the exclusion file is touched or any input is
scanned. -/
theorem c3_invalid_key_fields_after_open (a : Argv) (fs : Fs) (s : List Char)
    (hkf : a.key_fields = some s) (hs : s.isEmpty = false)
    (hrm : kfRegexMatch s = false) (hOpen : fs.blastOk = true) :
    mainRun a fs = ⟨[Ev.openBlast, Ev.kfError], 1, none⟩ := by
  unfold mainRun
  simp [hOpen, hkf, hs, hrm, kfTruthy, kfStr]

/-- Witness for C3 (amended) at key-fields "x". -/
theorem c3_witness : mainRun aKfX fsNoHeader = ⟨[Ev.openBlast, Ev.kfError], 1, none⟩ :=
  c3_invalid_key_fields_after_open aKfX fsNoHeader "x".toList rfl (by decide) (by decide) rfl

/-- Counterexample to C4: with exclusion term "mitochondrial" and the hit
description "Mitochondrial DNA polymerase ...", the hit is tallied in the
exclusion mapping under the matched text "Mitochondrial" taken from the
description (group(0) of the re.search), not under the supplied term
"mitochondrial". -/
theorem c4_counterexample :
    (mainRun aExcl fsMito).scan.map (fun st => dictKeys st.excludedResults)
        = some ["Mitochondrial".toList]
    ∧ (mainRun aExcl fsMito).scan.map (fun st => st.results.isEmpty) = some true
    ∧ "Mitochondrial".toList ≠ "mitochondrial".toList := by
  decide

/-- C4 (amended): a hit whose raw description matches the exclusion filter
is diverted entirely: it is tallied in the exclusion mapping under the
matched substring of the description (group(0)), which equals some supplied
term up to ASCII case, and the main results mapping is unchanged by the
step. -/
theorem c4_excluded_under_matched_text (ka : Option (List (List Char)))
    (excl : List (List Char)) (st : ScanState) (l d s e m : List Char)
    (hF : st.foundHeader = true) (hQ : st.newQuery = true) (hG : st.getNextHit = true)
    (hm : hitMatch (pyRstrip l) = some (d, s, e))
    (hns : pyNumericOk (pyStrip s) = true) (hne : pyNumericOk (pyStrip e) = true)
    (hexcl : excl.isEmpty = false)
    (hsearch : reSearch excl (pyStrip d) = some m) :
    ∃ st1, processLine ka excl st l = .ok st1
      ∧ st1.excludedResults = dictTally st.excludedResults m (pyStrip s) (pyStrip e)
      ∧ st1.results = st.results
      ∧ ∃ t, t ∈ excl ∧ m.map Char.toLower = t.map Char.toLower := by
  have hstep := processLine_emit ka excl st l d s e hF hQ hG hm hns hne
  have hif : (if excl.isEmpty then none else reSearch excl (pyStrip d)) = some m := by
    simp [hexcl, hsearch]
  rw [tallyHit_excluded ka excl (bumpLine st) (pyStrip d) (pyStrip s) (pyStrip e) m hif]
    at hstep
  refine ⟨_, hstep, by simp, by simp, ?_⟩
  obtain ⟨j, hj1, hj2, hfm, hmin⟩ :=
    searchFrom_some excl (pyStrip d) (((pyStrip d).length) + 1) 0 m hsearch
  obtain ⟨pre, t, post, hsplit, hmt, hm2, hpre⟩ := firstMatchAt_some (pyStrip d) j m excl hfm
  refine ⟨t, ?_, ?_⟩
  · rw [hsplit]
    exact List.mem_append_right _ (List.mem_cons_self _ _)
  · rw [hm2]
    exact ciStartsWith_lower t _ hmt

/-- Witness for C4 (amended) at the mitochondrial hit line. -/
theorem c4_witness :
    ∃ st1, processLine none exMito stHitReady lineMito = .ok st1
      ∧ st1.excludedResults
          = dictTally stHitReady.excludedResults "Mitochondrial".toList
              (pyStrip "50".toList) (pyStrip "1e-10".toList)
      ∧ st1.results = stHitReady.results
      ∧ ∃ t, t ∈ exMito
          ∧ "Mitochondrial".toList.map Char.toLower = t.map Char.toLower :=
  c4_excluded_under_matched_text none exMito stHitReady lineMito
    "Mitochondrial DNA polymerase".toList "50".toList "1e-10".toList
    "Mitochondrial".toList rfl rfl rfl (by decide) (by decide) (by decide)
    (by decide) (by decide)

theorem ScanInv_initState : ScanInv initState := by
  refine ⟨rfl, ?_, ?_⟩
  · intro b hb
    cases hb
  · intro hq
    exact Bool.noConfusion hq

/-- C5: for every input whose scan completes (every recognized hit line has
parseable score and e-value tokens), the sum of the hit counts over the
main results mapping plus the sum over the exclusion mapping equals the
number of query blocks that produced at least one recognized top-hit
line. -/
theorem c5_total_tally_conservation (ka : Option (List (List Char)))
    (excl : List (List Char)) (content : List Char) (st : ScanState)
    (h : runScan ka excl initState (pyLines content) = .ok st) :
    sumHits st.results + sumHits st.excludedResults = countHitBlocks st := by
  have hInv : ScanInv st :=
    runScan_preserves ka excl ScanInv
      (fun st0 l st1 hp hi => processLine_inv ka excl st0 st1 l hp hi)
      (pyLines content) initState st h ScanInv_initState
  obtain ⟨h1, h2, _⟩ := hInv
  rw [h1]
  exact natSum_eq_countPos st.blocks h2

/-- Witness for C5 on a two-query report with one excluded hit. -/
theorem c5_witness :
    runScan none exMito initState (pyLines contentTwoQ) = .ok stTwoQ
    ∧ sumHits stTwoQ.results + sumHits stTwoQ.excludedResults = countHitBlocks stTwoQ :=
  ⟨rfl, c5_total_tally_conservation none exMito contentTwoQ stTwoQ rfl⟩

/-- Counterexample to C6: with no key fields configured,
get_aggregation_key returns the description unchanged (line 88), without
stripping: on the description " a " the result is " a ", not its stripped
form "a". -/
theorem c6_counterexample :
    get_aggregation_key none " a ".toList = some " a ".toList
    ∧ " a ".toList ≠ pyStrip " a ".toList := by
  decide

/-- C6 (amended): with no key fields configured, get_aggregation_key is the
identity on its argument; since the scan always passes the already stripped
seqString, the derived key coincides with the stripped description on every
description the program actually derives a key for. -/
theorem c6_no_key_fields_identity (d : List Char) :
    get_aggregation_key none d = some d
    ∧ get_aggregation_key none (pyStrip d) = some (pyStrip d) :=
  ⟨rfl, rfl⟩

/-- Counterexample to C7: with the terms supplied in the order
["bbb", "aaa"] and the description "aaa bbb", both terms occur in the
description, yet the search reports "aaa" — the leftmost occurrence — and
not the earlier-supplied "bbb". -/
theorem c7_counterexample :
    reSearch ["bbb".toList, "aaa".toList] "aaa bbb".toList = some "aaa".toList
    ∧ matchTermAt "bbb".toList "aaa bbb".toList 4 = true
    ∧ some "aaa".toList ≠ some "bbb".toList := by
  decide

/-- C7 (amended): the exclusion test is case-insensitive and returns the
matched substring of the description at the leftmost position where any
supplied term matches; among the terms matching at that position, the
first in supplied order wins; the returned text equals that term up to
ASCII case. -/
theorem c7_leftmost_first_alternative (terms : List (List Char)) (desc m : List Char)
    (h : reSearch terms desc = some m) :
    ∃ j pre t post, terms = pre ++ t :: post
      ∧ matchTermAt t desc j = true
      ∧ m = sliceAt desc j t.length
      ∧ m.map Char.toLower = t.map Char.toLower
      ∧ (∀ k, k < j → ∀ u ∈ terms, matchTermAt u desc k = false)
      ∧ (∀ u ∈ pre, matchTermAt u desc j = false) := by
  obtain ⟨j, hj1, hj2, hfm, hmin⟩ := searchFrom_some terms desc (desc.length + 1) 0 m h
  obtain ⟨pre, t, post, hsplit, hmt, hm2, hpre⟩ := firstMatchAt_some desc j m terms hfm
  refine ⟨j, pre, t, post, hsplit, hmt, hm2, ?_, ?_, hpre⟩
  · rw [hm2]
    exact ciStartsWith_lower t _ hmt
  · intro k hk u hu
    exact (firstMatchAt_none_iff desc k terms).mp (hmin k (Nat.zero_le k) hk) u hu

/-- Witness for C7 (amended) at the two-term search. -/
theorem c7_witness :
    ∃ j pre t post, (["bbb".toList, "aaa".toList] : List (List Char)) = pre ++ t :: post
      ∧ matchTermAt t "aaa bbb".toList j = true
      ∧ "aaa".toList = sliceAt "aaa bbb".toList j t.length
      ∧ "aaa".toList.map Char.toLower = t.map Char.toLower
      ∧ (∀ k, k < j → ∀ u ∈ (["bbb".toList, "aaa".toList] : List (List Char)),
          matchTermAt u "aaa bbb".toList k = false)
      ∧ (∀ u ∈ pre, matchTermAt u "aaa bbb".toList j = false) :=
  c7_leftmost_first_alternative ["bbb".toList, "aaa".toList] "aaa bbb".toList
    "aaa".toList (by decide)

/-- C8: the state machine emits at most one hit record per query block (no
block counter of a completed run exceeds 1), and the step that consumes a
line of hit shape while foundHeader, newQuery and getNextHit are all set
clears both flags, returning the machine to awaiting the next Query
marker. -/
theorem c8_at_most_one_hit_per_block (ka : Option (List (List Char)))
    (excl : List (List Char)) (content : List Char) (st st0 : ScanState)
    (l d s e : List Char) (st1 : ScanState)
    (hrun : runScan ka excl initState (pyLines content) = .ok st)
    (hF : st0.foundHeader = true) (hQ : st0.newQuery = true) (hG : st0.getNextHit = true)
    (hm : hitMatch (pyRstrip l) = some (d, s, e))
    (hstep : processLine ka excl st0 l = .ok st1) :
    (∀ b ∈ st.blocks, b ≤ 1) ∧ st1.newQuery = false ∧ st1.getNextHit = false := by
  refine ⟨?_, ?_⟩
  · exact (runScan_preserves ka excl ScanInv
      (fun sa la sb hp hi => processLine_inv ka excl sa sb la hp hi)
      (pyLines content) initState st hrun ScanInv_initState).2.1
  · have hnb : isBlank (pyRstrip l) = false := hitMatch_not_blank _ _ hm
    simp only [processLine, hnb, hF, hQ, hG, hm, Bool.not_true, Bool.false_and,
      Bool.and_self, Bool.true_and, Bool.and_false, Bool.false_eq_true, if_false,
      if_true] at hstep
    split_ifs at hstep with hns hne
    injection hstep with h2
    subst h2
    exact ⟨tallyHit_newQuery _ _ _ _ _ _, tallyHit_getNextHit _ _ _ _ _ _⟩

/-- Witness for C8: the two-query run and one concrete emitting step. -/
theorem c8_witness :
    (∀ b ∈ stTwoQ.blocks, b ≤ 1) ∧ stHitDone.newQuery = false ∧ stHitDone.getNextHit = false :=
  c8_at_most_one_hit_per_block none exMito contentTwoQ stTwoQ stHitReady lineHit3
    "alpha beta".toList "3".toList "1e-2".toList stHitDone rfl rfl rfl rfl (by decide) rfl

/-- C9: when key derivation fails on a hit (get_aggregation_key returns the
wrapped error) the step still succeeds: the hit is tallied in the main
mapping under the full stripped description, the warning counter grows by
exactly one, the exclusion mapping is untouched, and the scan goes on with
the next line. -/
theorem c9_key_failure_fallback (ka : Option (List (List Char)))
    (excl : List (List Char)) (st : ScanState) (l d s e : List Char)
    (hF : st.foundHeader = true) (hQ : st.newQuery = true) (hG : st.getNextHit = true)
    (hm : hitMatch (pyRstrip l) = some (d, s, e))
    (hns : pyNumericOk (pyStrip s) = true) (hne : pyNumericOk (pyStrip e) = true)
    (hnoex : (if excl.isEmpty then none else reSearch excl (pyStrip d)) = none)
    (hkey : get_aggregation_key ka (pyStrip d) = none) :
    ∃ st1, processLine ka excl st l = .ok st1
      ∧ st1.warningCount = st.warningCount + 1
      ∧ st1.results = dictTally st.results (pyStrip d) (pyStrip s) (pyStrip e)
      ∧ st1.excludedResults = st.excludedResults := by
  have hstep := processLine_emit ka excl st l d s e hF hQ hG hm hns hne
  rw [tallyHit_warn ka excl (bumpLine st) (pyStrip d) (pyStrip s) (pyStrip e) hnoex hkey]
    at hstep
  exact ⟨_, hstep, by simp, by simp, by simp⟩

/-- Witness for C9: key field 9 against a three-token description. -/
theorem c9_witness :
    ∃ st1, processLine (some ["9".toList]) [] stHitReady lineHit4 = .ok st1
      ∧ st1.warningCount = stHitReady.warningCount + 1
      ∧ st1.results = dictTally stHitReady.results (pyStrip "alpha beta gamma".toList)
          (pyStrip "7".toList) (pyStrip "1e-4".toList)
      ∧ st1.excludedResults = stHitReady.excludedResults :=
  c9_key_failure_fallback (some ["9".toList]) [] stHitReady lineHit4
    "alpha beta gamma".toList "7".toList "1e-4".toList rfl rfl rfl (by decide)
    (by decide) (by decide) rfl (by decide)

/-- Counterexample to C10: the exclusion file "abc\n\n" ends in a blank line
and so contributes the empty term, and indeed the hit on the description
"abcdef gh" is diverted and the main mapping stays empty; but it is tallied
under the key "abc" — the leftmost match is the nonempty term at position 0
— and not under the empty-string key as the claim states. -/
theorem c10_counterexample :
    exclTermsOf "abc\n\n".toList = ["abc".toList, []]
    ∧ (mainRun aExcl fsAbcBlank).scan.map (fun st => dictKeys st.excludedResults)
        = some ["abc".toList]
    ∧ (mainRun aExcl fsAbcBlank).scan.map (fun st => st.results.isEmpty) = some true
    ∧ "abc".toList ≠ ([] : List Char) := by
  decide

/-- C10 (amended): when the exclusion terms contain the empty string (as an
empty exclusion-file line produces), the compiled alternation matches every
description, so every hit of a completed run is diverted and the main
results mapping receives no entries at all; the key each hit lands under is
the matched text of the leftmost match, which is the empty string only when
no earlier-supplied term matches at the start of the description. -/
theorem c10_empty_term_diverts_all (ka : Option (List (List Char)))
    (excl : List (List Char)) (content : List Char) (st : ScanState) (desc : List Char)
    (hterm : [] ∈ excl) (h : runScan ka excl initState (pyLines content) = .ok st) :
    st.results = [] ∧ (reSearch excl desc).isSome = true := by
  refine ⟨?_, reSearch_isSome_of_empty_term excl desc hterm⟩
  exact runScan_preserves ka excl (fun s0 => s0.results = [])
    (fun st0 l st1 hp hr => processLine_keeps_results_empty ka excl st0 st1 l hterm hp hr)
    (pyLines content) initState st h rfl

/-- Witness for C10 (amended): the two-query run filtered by the empty
term alone. -/
theorem c10_witness :
    stTwoQEmpty.results = [] ∧ (reSearch exEmptyTerm "anything".toList).isSome = true :=
  c10_empty_term_diverts_all none exEmptyTerm contentTwoQ stTwoQEmpty "anything".toList
    (by decide) rfl

/-- Witness for C6 (amended) at a concrete description. -/
theorem c6_witness :
    get_aggregation_key none "desc x".toList = some "desc x".toList
    ∧ get_aggregation_key none (pyStrip "desc x".toList) = some (pyStrip "desc x".toList) :=
  c6_no_key_fields_identity "desc x".toList
